import Mathlib

/-!
Shallow embedding of the SMTP bridge's session handler and mail parser
(`internal/smtp`, Go).  Strings are modelled as Lean `String`s, with the
character-list splitting/trimming helpers mirroring the Go `strings`
functions the code calls.  The Go standard-library pieces the code leans
on (`mime.ParseMediaType`, `mime/multipart.Reader`, `textproto`) are
modelled at the fidelity the bridge exercises; each such definition's
doc comment states its simplifications.  Wire lines are modelled as
lists of CRLF-terminated lines with the terminators stripped.
-/

namespace SmtpBridge

/-- Model of Go `unicode.IsSpace` restricted to the ASCII whitespace the
protocol can carry (space, tab, CR, LF). -/
def isWS (c : Char) : Bool := c = ' ' || c = '\t' || c = '\n' || c = '\r'

/-- Trim `isWS` characters from both ends of a character list
(Go `strings.TrimSpace`). -/
def trimL (l : List Char) : List Char :=
  ((l.dropWhile isWS).reverse.dropWhile isWS).reverse

/-- Go `strings.TrimSpace` on strings. -/
def trimS (s : String) : String := ⟨trimL s.data⟩

/-- Go `strings.EqualFold`, ASCII case folding. -/
def eqFold (a b : String) : Bool :=
  a.data.map Char.toLower == b.data.map Char.toLower

/-- Go `strings.HasPrefix s p`. -/
def startsWithS (s p : String) : Bool := p.data.isPrefixOf s.data

/-- Split a character list at the first occurrence of `sep`
(`strings.SplitN (·) sep 2` / `strings.Index`): `none` when `sep` does
not occur, otherwise the pieces before and after the first occurrence. -/
def splitFirst (sep : Char) : List Char → Option (List Char × List Char)
  | [] => none
  | c :: cs =>
    if c = sep then some ([], cs)
    else (splitFirst sep cs).map (fun p => (c :: p.1, p.2))

/-- Split a character list at the first occurrence of the four-character
separator `"\r\n\r\n"` (Go `strings.SplitN data "\r\n\r\n" 2`). -/
def splitFirstBlank : List Char → Option (List Char × List Char)
  | '\r' :: '\n' :: '\r' :: '\n' :: rest => some ([], rest)
  | [] => none
  | c :: rest => (splitFirstBlank rest).map (fun p => (c :: p.1, p.2))

/-- Split a character list on every occurrence of `"\r\n"`
(Go `strings.Split (·) "\r\n"`). -/
def splitCRLF : List Char → List (List Char)
  | [] => [[]]
  | '\r' :: '\n' :: rest => [] :: splitCRLF rest
  | c :: rest =>
    match splitCRLF rest with
    | [] => [[c]]
    | a :: as => (c :: a) :: as

/-- The characters Go `strings.Trim (·) "<>"` removes. -/
def isAngle (c : Char) : Bool := c = '<' || c = '>'

/-- Go `strings.Trim (·) "<>"`: remove every leading and trailing
`<` or `>` character. -/
def trimAngleS (s : String) : String :=
  ⟨((s.data.dropWhile isAngle).reverse.dropWhile isAngle).reverse⟩

deriving instance DecidableEq for Except

/-- Parsed mail data (struct `MailMessage`). -/
structure MailMessage where
  From : String
  To : String
  Subject : String
  PlainText : String
  HTMLText : String
deriving DecidableEq, Repr

/-- `Server.parseAddress`: split the command line on the first colon,
fail when no colon exists, trim surrounding whitespace from the piece
after the colon, then remove all leading/trailing angle brackets. -/
def parseAddress (line : String) : Except String String :=
  match splitFirst ':' line.data with
  | none => .error "invalid RCPT TO syntax"
  | some p => .ok (trimAngleS (trimS ⟨p.2⟩))

/-- Insert-with-overwrite into an association list, modelling
`map[k] = v` on a Go string map. -/
def insertAssoc (m : List (String × String)) (k v : String) :
    List (String × String) :=
  if m.any (fun p => p.1 == k) then
    m.map (fun p => if p.1 == k then (k, v) else p)
  else m ++ [(k, v)]

/-- Header-block scan of `parseHeadersAndBody`: split each line on the
first colon, trim key and value, store into the map; fail on any line
without a colon. -/
def buildHeaders (acc : List (String × String)) :
    List (List Char) → Except String (List (String × String))
  | [] => .ok acc
  | line :: rest =>
    match splitFirst ':' line with
    | none => .error ("invalid header format: " ++ (⟨line⟩ : String))
    | some p =>
      buildHeaders (insertAssoc acc (trimS ⟨p.1⟩) (trimS ⟨p.2⟩)) rest

/-- `parseHeadersAndBody`: split the raw data on the first blank line
(`"\r\n\r\n"`), fail when absent, then scan the header block. -/
def parseHeadersAndBody (data : String) :
    Except String (List (String × String) × String) :=
  match splitFirstBlank data.data with
  | none => .error "invalid mail format: missing headers or body"
  | some p =>
    match buildHeaders [] (splitCRLF p.1) with
    | .error e => .error e
    | .ok hs => .ok (hs, ⟨p.2⟩)

/-! ## Model of Go `mime.ParseMediaType`

The bridge delegates Content-Type interpretation to the Go standard
library.  The model below follows `mime/mediatype.go`: media type =
lowercased, trimmed text before the first `;`, validated as
`token["/"token]`; parameters = `;`-separated `token=value` pairs with
optional quoted-string values, lowercased keys, duplicate keys with
differing values rejected.  Simplifications: ASCII-only case folding,
and no RFC 2231 extended/continued parameters (keys containing `*`),
which the bridge never produces for the only parameter it reads
(`boundary`). -/

/-- Go `mime.isTSpecial`. -/
def tspecialChars : List Char :=
  ['(', ')', '<', '>', '@', ',', ';', ':', '\\', '"', '/', '[', ']', '?', '=']

def isTSpecial (c : Char) : Bool := tspecialChars.contains c

/-- Go `mime.isTokenChar`: printable ASCII excluding space and tspecials. -/
def isTokenChar (c : Char) : Bool :=
  decide (0x20 < c.toNat) && decide (c.toNat < 0x7f) && !(isTSpecial c)

/-- Quoted-string tail of Go `mime.consumeValue` (after the opening
quote): content until the closing quote, `\`-escapes honoured only
before tspecial characters, CR/LF and a missing closing quote are
failures. -/
def consumeQuoted : List Char → Option (List Char × List Char)
  | [] => none
  | [c] => if c = '"' then some ([], []) else none
  | c :: d :: rest =>
    if c = '"' then some ([], d :: rest)
    else if c = '\r' ∨ c = '\n' then none
    else if c = '\\' ∧ isTSpecial d then
      (consumeQuoted rest).map (fun p => (d :: p.1, p.2))
    else (consumeQuoted (d :: rest)).map (fun p => (c :: p.1, p.2))

/-- Go `mime.consumeValue`: a quoted string or a bare token. -/
def consumeValue : List Char → Option (List Char × List Char)
  | [] => some ([], [])
  | c :: rest =>
    if c = '"' then consumeQuoted rest
    else some ((c :: rest).takeWhile isTokenChar, (c :: rest).dropWhile isTokenChar)

/-- Go `mime.consumeMediaParam`: skip whitespace, expect `;`, skip
whitespace, read a token key (lowercased), expect `=`, read a value;
`none` on any shape violation. -/
def consumeMediaParam (l : List Char) : Option (String × String × List Char) :=
  match l.dropWhile isWS with
  | ';' :: v1 =>
    if ((v1.dropWhile isWS).takeWhile isTokenChar) = [] then none
    else
      match (v1.dropWhile isWS).dropWhile isTokenChar with
      | '=' :: rest1 =>
        match consumeValue rest1 with
        | none => none
        | some p =>
          if p.1 = [] ∧ p.2 = rest1 then none
          else
            some (⟨((v1.dropWhile isWS).takeWhile isTokenChar).map Char.toLower⟩,
              ⟨p.1⟩, p.2)
      | _ => none
  | _ => none

theorem dropWhile_len_le (p : Char → Bool) (l : List Char) :
    (l.dropWhile p).length ≤ l.length := by
  induction l with
  | nil => simp [List.dropWhile]
  | cons c cs ih =>
    by_cases h : p c = true
    · simp [List.dropWhile, h]; omega
    · simp [List.dropWhile, h]

theorem consumeQuoted_len {l v r : List Char}
    (h : consumeQuoted l = some (v, r)) : r.length < l.length := by
  induction l using consumeQuoted.induct generalizing v r with
  | case1 => simp [consumeQuoted] at h
  | case2 =>
    simp [consumeQuoted] at h
    rw [← h.2]
    simp
  | case3 c hc =>
    rw [consumeQuoted, if_neg hc] at h
    simp at h
  | case4 d rest =>
    simp [consumeQuoted] at h
    rw [← h.2]
    simp
  | case5 c d rest h1 h2 =>
    rw [consumeQuoted, if_neg h1, if_pos h2] at h
    simp at h
  | case6 c d rest h1 h2 h3 ih =>
    rw [consumeQuoted, if_neg h1, if_neg h2, if_pos h3] at h
    simp [Option.map_eq_some', Prod.ext_iff] at h
    obtain ⟨a, hq, hv⟩ := h
    have := ih hq
    simp
    omega
  | case7 c d rest h1 h2 h3 ih =>
    rw [consumeQuoted, if_neg h1, if_neg h2, if_neg h3] at h
    simp [Option.map_eq_some', Prod.ext_iff] at h
    obtain ⟨a, hq, hv⟩ := h
    have := ih hq
    simp at this ⊢
    omega

theorem consumeValue_len {l v r : List Char}
    (h : consumeValue l = some (v, r)) : r.length ≤ l.length := by
  match l with
  | [] => simp [consumeValue] at h; simp [← h.2]
  | c :: rest =>
    by_cases hc : c = '"'
    · rw [consumeValue, if_pos hc] at h
      have := consumeQuoted_len h
      simp; omega
    · rw [consumeValue, if_neg hc] at h
      simp at h
      rw [← h.2]
      exact dropWhile_len_le _ _

theorem consumeMediaParam_len {l : List Char} {q : String × String × List Char}
    (h : consumeMediaParam l = some q) : q.2.2.length < l.length := by
  obtain ⟨k, v, r⟩ := q
  show r.length < l.length
  unfold consumeMediaParam at h
  split at h
  · rename_i v1 heq
    have hv1 : v1.length < l.length := by
      have hd := dropWhile_len_le isWS l
      rw [heq] at hd
      simp at hd; omega
    split at h
    · simp at h
    · split at h
      · rename_i rest1 heqr
        split at h
        · simp at h
        · rename_i p hcv
          split at h
          · simp at h
          · simp at h
            obtain ⟨hk, hv, hr⟩ := h
            have h1 := consumeValue_len hcv
            have h2 : rest1.length <
                ((v1.dropWhile isWS).dropWhile isTokenChar).length := by
              rw [heqr]; simp
            have h3 := dropWhile_len_le isTokenChar (v1.dropWhile isWS)
            have h4 := dropWhile_len_le isWS v1
            rw [← hr]; omega
      · simp at h
  · simp at h

/-- Go `mime.checkMediaTypeDisposition`: the media type must be a token,
optionally followed by `/` and a second token. -/
def checkMediaType (s : String) : Except String Unit :=
  if s.data.takeWhile isTokenChar = [] then .error "mime: no media type"
  else
    match s.data.dropWhile isTokenChar with
    | [] => .ok ()
    | '/' :: r2 =>
      if r2.takeWhile isTokenChar = [] then .error "mime: expected token after slash"
      else if r2.dropWhile isTokenChar = [] then .ok ()
      else .error "mime: unexpected content after media subtype"
    | _ => .error "mime: expected slash after first token"

/-- Parameter loop of Go `mime.ParseMediaType`: consume `;key=value`
segments, ignoring a lone trailing `;`, rejecting malformed segments and
duplicate keys whose values differ.  The loop is driven by fuel so that
it stays kernel-computable; `consumeMediaParam_len` shows every
iteration consumes at least one character, so the initial fuel
`l.length + 1` supplied by `paramLoop` is never exhausted. -/
def paramLoopF : Nat → List Char → List (String × String) →
    Except String (List (String × String))
  | 0, _, _ => .error "mime: invalid media parameter"
  | fuel + 1, l, acc =>
    if l.dropWhile isWS = [] then .ok acc
    else
      match consumeMediaParam (l.dropWhile isWS) with
      | none =>
        if trimL (l.dropWhile isWS) = [';'] then .ok acc
        else .error "mime: invalid media parameter"
      | some p =>
        if acc.any (fun q => q.1 == p.1 && q.2 != p.2.1) then
          .error "mime: duplicate parameter name"
        else paramLoopF fuel p.2.2 (insertAssoc acc p.1 p.2.1)

def paramLoop (l : List Char) (acc : List (String × String)) :
    Except String (List (String × String)) :=
  paramLoopF (l.length + 1) l acc

/-- Model of Go `mime.ParseMediaType` (see section comment above). -/
def parseMediaType (v : String) : Except String (String × List (String × String)) :=
  match checkMediaType ⟨(trimL (v.data.takeWhile (· != ';'))).map Char.toLower⟩ with
  | .error e => .error e
  | .ok _ =>
    match paramLoop (v.data.dropWhile (· != ';')) [] with
    | .error e => .error e
    | .ok ps =>
      .ok (⟨(trimL (v.data.takeWhile (· != ';'))).map Char.toLower⟩, ps)

/-- Go map lookup `params[key]`, empty string when the key is absent. -/
def paramGet (ps : List (String × String)) (k : String) : String :=
  match ps.find? (fun p => p.1 == k) with
  | some p => p.2
  | none => ""

/-- The case-insensitive lookup closure `getHeader` inside
`parseMailData`: first `strings.EqualFold` match during a traversal of
the header map, empty string when none matches.  The traversal order is
the list order; the Go map's iteration order is arbitrary, which is why
theorems about lookups quantify over permutations of the map. -/
def getHeaderIn (hs : List (String × String)) (key : String) : String :=
  match hs.find? (fun p => eqFold p.1 key) with
  | some p => p.2
  | none => ""

/-! ## Model of Go `mime/multipart.Reader`

`processMultipartMessage` drives `multipart.Reader.NextPart` /
`io.ReadAll` over the body.  The model below works on the body's CRLF
lines: a *delimiter line* is `--boundary` plus optional linear
whitespace, a *final line* is `--boundary--` plus optional linear
whitespace; the preamble before the first delimiter line is skipped
(reaching end of input first is the `NextPart: EOF` error); each part is
a MIME header block (colon-separated lines up to a blank line, values
with leading spaces/tabs stripped, per `textproto`) followed by content
lines up to the next delimiter or final line (end of input first is the
unexpected-EOF read error); text after the final line is ignored.
Not modelled: `NextPart`'s transparent quoted-printable decoding and
`textproto` header folding, neither of which the claims exercise. -/

/-- A decoded multipart part: its MIME header and raw content. -/
structure MPart where
  header : List (String × String)
  content : String
deriving DecidableEq, Repr

/-- Linear whitespace (Go `skipLWSPChar`). -/
def isLWSP (c : Char) : Bool := c = ' ' || c = '\t'

/-- Go `Reader.isBoundaryDelimiterLine` at line level. -/
def isDelimLine (b line : String) : Bool :=
  (("--" ++ b).data.isPrefixOf line.data) &&
    (line.data.drop ("--" ++ b).data.length).all isLWSP

/-- Go `Reader.isFinalBoundary` at line level. -/
def isFinalLine (b line : String) : Bool :=
  (("--" ++ b ++ "--").data.isPrefixOf line.data) &&
    (line.data.drop ("--" ++ b ++ "--").data.length).all isLWSP

/-- Skip the preamble: `some rest` when a delimiter line is found (a
part follows), `none` when the final line comes first (no parts), error
when the input ends first. -/
def skipPreamble (b : String) : List String → Except String (Option (List String))
  | [] => .error "multipart: NextPart: EOF"
  | l :: rest =>
    if isDelimLine b l then .ok (some rest)
    else if isFinalLine b l then .ok none
    else skipPreamble b rest

/-- Read a part's MIME header block (Go `textproto.ReadMIMEHeader`):
lines up to a blank line, each split on the first colon, value stripped
of leading spaces/tabs. -/
def readPartHeaders : List String → Except String (List (String × String) × List String)
  | [] => .error "multipart: NextPart: EOF"
  | l :: rest =>
    if l = "" then .ok ([], rest)
    else
      match splitFirst ':' l.data with
      | none => .error ("malformed MIME header line: " ++ l)
      | some p =>
        match readPartHeaders rest with
        | .error e => .error e
        | .ok q => .ok ((⟨p.1⟩, (⟨p.2.dropWhile isLWSP⟩ : String)) :: q.1, q.2)

/-- Read part content up to the next delimiter (`some rest`: another
part follows) or final line (`none`: last part); error at end of
input. -/
def readContent (b : String) :
    List String → Except String (List String × Option (List String))
  | [] => .error "multipart: unexpected EOF reading part body"
  | l :: rest =>
    if isDelimLine b l then .ok ([], some rest)
    else if isFinalLine b l then .ok ([], none)
    else
      match readContent b rest with
      | .error e => .error e
      | .ok q => .ok (l :: q.1, q.2)

/-- Rejoin content lines with CRLF. -/
def joinCRLF (ls : List String) : String := String.intercalate "\r\n" ls

theorem readPartHeaders_len {ls : List String}
    {q : List (String × String) × List String}
    (h : readPartHeaders ls = .ok q) : q.2.length < ls.length := by
  induction ls generalizing q with
  | nil => simp [readPartHeaders] at h
  | cons l rest ih =>
    rw [readPartHeaders] at h
    by_cases hl : l = ""
    · rw [if_pos hl] at h
      simp at h
      rw [← h]
      simp
    · rw [if_neg hl] at h
      split at h
      · simp at h
      · split at h
        · simp at h
        · rename_i q0 hq0
          simp at h
          have := ih hq0
          rw [← h]
          simp
          omega

theorem readContent_len {b : String} {ls : List String}
    {c : List String} {r : List String}
    (h : readContent b ls = .ok (c, some r)) : r.length < ls.length := by
  induction ls generalizing c r with
  | nil => simp [readContent] at h
  | cons l rest ih =>
    rw [readContent] at h
    by_cases h1 : isDelimLine b l = true
    · rw [if_pos h1] at h
      simp at h
      rw [← h.2]
      simp
    · rw [if_neg h1] at h
      by_cases h2 : isFinalLine b l = true
      · rw [if_pos h2] at h
        simp at h
      · rw [if_neg h2] at h
        split at h
        · simp at h
        · rename_i q0 hq0
          simp at h
          obtain ⟨hc, hr⟩ := h
          have hq0' : readContent b rest = Except.ok (q0.1, some r) := by
            rw [← hr]; exact hq0
          have := ih hq0'
          simp
          omega

/-- The sequence of parts of a multipart body (Go `NextPart` loop),
fuel-driven for kernel computability; `readPartHeaders_len` and
`readContent_len` show every part consumes at least one line, so the
initial fuel `lines.length + 1` supplied by `partsFrom` is never
exhausted. -/
def partsFromF : Nat → String → List String → Except String (List MPart)
  | 0, _, _ => .error "error reading multipart message: multipart: NextPart: EOF"
  | fuel + 1, b, lines =>
    match readPartHeaders lines with
    | .error e => .error ("error reading multipart message: " ++ e)
    | .ok q =>
      match readContent b q.2 with
      | .error e => .error ("error reading part: " ++ e)
      | .ok (content, none) => .ok [⟨q.1, joinCRLF content⟩]
      | .ok (content, some r2) =>
        match partsFromF fuel b r2 with
        | .error e => .error e
        | .ok parts => .ok (⟨q.1, joinCRLF content⟩ :: parts)

def partsFrom (b : String) (lines : List String) : Except String (List MPart) :=
  partsFromF (lines.length + 1) b lines

/-- Split a string into its CRLF lines. -/
def linesOf (s : String) : List String := (splitCRLF s.data).map (fun l => ⟨l⟩)

/-- All parts of a multipart body.  Go `Reader.nextPart` starts with an
unconditional guard rejecting an empty boundary (`if
string(r.dashBoundary) == "--"` it returns `multipart: boundary is
empty`), so with an empty boundary the very first `NextPart` call fails
before any input is read; the bridge wraps that error as
`error reading multipart message: …`.  Otherwise: skip the preamble,
then read parts. -/
def multipartParts (b : String) (lines : List String) : Except String (List MPart) :=
  if b = "" then
    .error "error reading multipart message: multipart: boundary is empty"
  else
    match skipPreamble b lines with
    | .error e => .error ("error reading multipart message: " ++ e)
    | .ok none => .ok []
    | .ok (some r) => partsFrom b r

/-- Per-part update of `processMultipartMessage`: a `text/plain` part
sets PlainText to its trimmed content, else a `text/html` part sets
HTMLText; other parts are ignored. -/
def applyPart (m : MailMessage) (p : MPart) : MailMessage :=
  if startsWithS (getHeaderIn p.header "Content-Type") "text/plain" then
    { m with PlainText := trimS p.content }
  else if startsWithS (getHeaderIn p.header "Content-Type") "text/html" then
    { m with HTMLText := trimS p.content }
  else m

/-- Fold of `applyPart` over the part sequence (later parts overwrite
earlier ones). -/
def applyParts (parts : List MPart) (m : MailMessage) : MailMessage :=
  parts.foldl applyPart m

/-- `processMultipartMessage`: decompose the body at the boundary and
fold the parts into the message. -/
def processMultipartMessage (body : String) (boundary : String) (m : MailMessage) :
    Except String MailMessage :=
  match multipartParts boundary (linesOf body) with
  | .error e => .error e
  | .ok parts => .ok (applyParts parts m)

/-! ## `parseMailData` and the session state machine -/

/-- The tail of `parseMailData` after the header map is built,
parameterized over the traversal order `hs` the lookup closure sees
(the Go map's iteration order is unspecified; `parseMailData` below uses
insertion order as the canonical enumeration). -/
def parseMailCore (hs : List (String × String)) (body : String) :
    Except String MailMessage :=
  match parseMediaType (getHeaderIn hs "Content-Type") with
  | .error e =>
    if getHeaderIn hs "Content-Type" ≠ "" then
      .error ("error parsing Content-Type: " ++ e)
    else
      .ok { From := getHeaderIn hs "From", To := getHeaderIn hs "To",
            Subject := getHeaderIn hs "Subject", PlainText := body, HTMLText := "" }
  | .ok mp =>
    if startsWithS mp.1 "multipart/" then
      processMultipartMessage body (paramGet mp.2 "boundary")
        { From := getHeaderIn hs "From", To := getHeaderIn hs "To",
          Subject := getHeaderIn hs "Subject", PlainText := "", HTMLText := "" }
    else
      .ok { From := getHeaderIn hs "From", To := getHeaderIn hs "To",
            Subject := getHeaderIn hs "Subject", PlainText := body, HTMLText := "" }

/-- `parseMailData`: split headers and body, then interpret
Content-Type (a parse failure there is fatal only when the header was
non-empty; an absent or empty Content-Type leaves the media type empty,
so the body becomes PlainText). -/
def parseMailData (data : String) : Except String MailMessage :=
  match parseHeadersAndBody data with
  | .error e => .error e
  | .ok p => parseMailCore p.1 p.2

/-- The lines consumed by `collectMailData` up to the terminating `"."`
line (`some (kept, rest)`), or `none` when the input ends first (the
read error Go signals by returning the empty string). -/
def collectLines : List String → Option (List String × List String)
  | [] => none
  | l :: ls =>
    if trimS l = "." then some ([], ls)
    else (collectLines ls).map (fun p => (l :: p.1, p.2))

/-- `collectMailData`: raw mail text = the joined CRLF lines before the
`"."` marker, trimmed of surrounding whitespace. -/
def collectMailData (input : List String) : Option (String × List String) :=
  (collectLines input).map (fun p => (trimS (joinCRLF p.1), p.2))

theorem collectLines_len {input : List String} {q : List String × List String}
    (h : collectLines input = some q) : q.2.length < input.length := by
  induction input generalizing q with
  | nil => simp [collectLines] at h
  | cons l ls ih =>
    rw [collectLines] at h
    by_cases hl : trimS l = "."
    · rw [if_pos hl] at h
      simp at h
      rw [← h]
      simp
    · rw [if_neg hl] at h
      simp at h
      obtain ⟨p1, p2, hp, hq⟩ := h
      have := ih hp
      rw [← hq]
      simp at this ⊢
      omega

theorem collectMailData_len {input : List String} {q : String × List String}
    (h : collectMailData input = some q) : q.2.length < input.length := by
  unfold collectMailData at h
  simp at h
  obtain ⟨p1, p2, hp, hq⟩ := h
  have := collectLines_len hp
  rw [← hq]
  simp at this ⊢
  omega

/-- What a session writes and dispatches. -/
structure SOut where
  replies : List String
  sent : List MailMessage
deriving DecidableEq, Repr

/-- The `"354 …"` go-ahead reply. -/
def data354 : String := "354 Start mail input; end with <CRLF>.<CRLF>"

/-- The `handleEHLO` reply block. -/
def ehloReplies : List String := ["250-Hello", "250-SIZE 10240000", "250 OK"]

/-- The command loop of `handleConnection`, after the `220` greeting.
`input` is the sequence of CRLF lines the client sends (terminators
stripped); running out of input models a read failure, terminating the
session with no further reply.  `replies` collects the status lines the
server writes, `sent` the messages handed to the dispatch callback, in
order.  Commands are matched by prefix on the trimmed line, in switch
order; note that a bare `"."` line matches `case line == "."`, whose Go
`break` leaves the switch without writing anything. -/
def runSession (cb : MailMessage → Except String Unit) (frm rcpt : String)
    (input : List String) : SOut :=
  match input with
  | [] => ⟨[], []⟩
  | l :: rest =>
    if startsWithS (trimS l) "EHLO" then
      ⟨ehloReplies ++ (runSession cb frm rcpt rest).replies,
        (runSession cb frm rcpt rest).sent⟩
    else if startsWithS (trimS l) "MAIL FROM" then
      match parseAddress (trimS l) with
      | .error e => ⟨["550 Error: " ++ e], []⟩
      | .ok a =>
        ⟨"250 OK" :: (runSession cb a rcpt rest).replies,
          (runSession cb a rcpt rest).sent⟩
    else if startsWithS (trimS l) "RCPT TO" then
      match parseAddress (trimS l) with
      | .error e => ⟨["550 Error: " ++ e], []⟩
      | .ok a =>
        ⟨"250 OK" :: (runSession cb frm a rest).replies,
          (runSession cb frm a rest).sent⟩
    else if startsWithS (trimS l) "DATA" then
      match hc : collectMailData rest with
      | none => ⟨[data354, "550 Error reading mail data"], []⟩
      | some q =>
        if q.1 = "" then ⟨[data354, "550 Error reading mail data"], []⟩
        else
          match parseMailData q.1 with
          | .error e => ⟨[data354, "550 Error processing mail: " ++ e], []⟩
          | .ok msg =>
            match cb { msg with From := frm, To := rcpt } with
            | .error e =>
              ⟨[data354, "550 Error processing mail: " ++ e],
                [{ msg with From := frm, To := rcpt }]⟩
            | .ok _ =>
              ⟨data354 :: "250 OK" :: (runSession cb frm rcpt q.2).replies,
                { msg with From := frm, To := rcpt } ::
                  (runSession cb frm rcpt q.2).sent⟩
    else if startsWithS (trimS l) "QUIT" then ⟨["221 Bye"], []⟩
    else if startsWithS (trimS l) "NOOP" then
      ⟨"250 OK" :: (runSession cb frm rcpt rest).replies,
        (runSession cb frm rcpt rest).sent⟩
    else if trimS l = "." then runSession cb frm rcpt rest
    else
      ⟨"250 OK" :: (runSession cb frm rcpt rest).replies,
        (runSession cb frm rcpt rest).sent⟩
termination_by input.length
decreasing_by
  all_goals simp
  all_goals exact Nat.lt_succ_of_lt (collectMailData_len hc)

/-- `handleConnection`: greeting line, then the command loop with an
empty envelope. -/
def handleConnection (cb : MailMessage → Except String Unit)
    (input : List String) : SOut :=
  ⟨"220 Welcome to the SMTP server" :: (runSession cb "" "" input).replies,
    (runSession cb "" "" input).sent⟩

/-! ## Model of `Server.Shutdown`

`Shutdown` reads the `done` channel (non-blocking `select`): if it was
already closed it fails, otherwise it closes `done` (signalling the
acceptor), waits on the WaitGroup for in-flight sessions, and closes the
listener via `Close`.  The model serializes calls and records the
observable actions in order. -/

/-- Observable actions of a `Shutdown` call. -/
inductive ShutdownEvent where
  | signalDone
  | waitSessions
  | closeListener
deriving DecidableEq, Repr

/-- Shutdown-relevant server state: whether `done` is closed, plus the
trace of actions performed so far. -/
structure ServerState where
  doneClosed : Bool
  events : List ShutdownEvent
deriving DecidableEq, Repr

/-- A freshly started server (`NewServer` + `Start`). -/
def initialServer : ServerState := ⟨false, []⟩

/-- One call to `Server.Shutdown`. -/
def shutdownStep (s : ServerState) : Except String Unit × ServerState :=
  if s.doneClosed then (.error "server already closed", s)
  else (.ok (), ⟨true,
    s.events ++ [.signalDone, .waitSessions, .closeListener]⟩)

/-! ## Step lemmas for the session loop -/

theorem runSession_nil (cb : MailMessage → Except String Unit) (frm rcpt : String) :
    runSession cb frm rcpt [] = ⟨[], []⟩ := by
  rw [runSession]

theorem runSession_catchall (cb : MailMessage → Except String Unit)
    (frm rcpt l : String) (rest : List String)
    (h1 : startsWithS (trimS l) "EHLO" = false)
    (h2 : startsWithS (trimS l) "MAIL FROM" = false)
    (h3 : startsWithS (trimS l) "RCPT TO" = false)
    (h4 : startsWithS (trimS l) "DATA" = false)
    (h5 : startsWithS (trimS l) "QUIT" = false)
    (h6 : startsWithS (trimS l) "NOOP" = false)
    (h7 : ¬ trimS l = ".") :
    runSession cb frm rcpt (l :: rest) =
      ⟨"250 OK" :: (runSession cb frm rcpt rest).replies,
        (runSession cb frm rcpt rest).sent⟩ := by
  rw [runSession.eq_def]
  simp [h1, h2, h3, h4, h5, h6, h7]

theorem runSession_dot (cb : MailMessage → Except String Unit)
    (frm rcpt l : String) (rest : List String)
    (h7 : trimS l = ".") :
    runSession cb frm rcpt (l :: rest) = runSession cb frm rcpt rest := by
  rw [runSession.eq_def]
  simp [h7]
  rfl

theorem runSession_mail_ok (cb : MailMessage → Except String Unit)
    (frm rcpt l a : String) (rest : List String)
    (h1 : startsWithS (trimS l) "EHLO" = false)
    (h2 : startsWithS (trimS l) "MAIL FROM" = true)
    (ha : parseAddress (trimS l) = .ok a) :
    runSession cb frm rcpt (l :: rest) =
      ⟨"250 OK" :: (runSession cb a rcpt rest).replies,
        (runSession cb a rcpt rest).sent⟩ := by
  rw [runSession.eq_def]
  simp [h1, h2, ha]

theorem runSession_rcpt_ok (cb : MailMessage → Except String Unit)
    (frm rcpt l a : String) (rest : List String)
    (h1 : startsWithS (trimS l) "EHLO" = false)
    (h2 : startsWithS (trimS l) "MAIL FROM" = false)
    (h3 : startsWithS (trimS l) "RCPT TO" = true)
    (ha : parseAddress (trimS l) = .ok a) :
    runSession cb frm rcpt (l :: rest) =
      ⟨"250 OK" :: (runSession cb frm a rest).replies,
        (runSession cb frm a rest).sent⟩ := by
  rw [runSession.eq_def]
  simp [h1, h2, h3, ha]

theorem runSession_data_sent (cb : MailMessage → Except String Unit)
    (frm rcpt l : String) (rest : List String) (q : String × List String)
    (msg : MailMessage)
    (h1 : startsWithS (trimS l) "EHLO" = false)
    (h2 : startsWithS (trimS l) "MAIL FROM" = false)
    (h3 : startsWithS (trimS l) "RCPT TO" = false)
    (h4 : startsWithS (trimS l) "DATA" = true)
    (hc : collectMailData rest = some q)
    (hne : ¬ q.1 = "")
    (hp : parseMailData q.1 = .ok msg) :
    (runSession cb frm rcpt (l :: rest)).sent.head? =
      some { msg with From := frm, To := rcpt } := by
  rw [runSession.eq_def]
  simp [h1, h2, h3, h4]
  split
  · rename_i heq
    rw [hc] at heq
    exact absurd heq (by simp)
  · rename_i q' heq
    rw [hc] at heq
    injection heq with hq'
    subst hq'
    rw [if_neg hne, hp]
    cases hcb : cb { msg with From := frm, To := rcpt } <;> simp [hcb]

theorem runSession_data_parse_err (cb : MailMessage → Except String Unit)
    (frm rcpt l e : String) (rest : List String) (q : String × List String)
    (h1 : startsWithS (trimS l) "EHLO" = false)
    (h2 : startsWithS (trimS l) "MAIL FROM" = false)
    (h3 : startsWithS (trimS l) "RCPT TO" = false)
    (h4 : startsWithS (trimS l) "DATA" = true)
    (hc : collectMailData rest = some q)
    (hne : ¬ q.1 = "")
    (hp : parseMailData q.1 = .error e) :
    runSession cb frm rcpt (l :: rest) =
      ⟨[data354, "550 Error processing mail: " ++ e], []⟩ := by
  rw [runSession.eq_def]
  simp [h1, h2, h3, h4]
  split
  · rename_i heq
    rw [hc] at heq
    exact absurd heq (by simp)
  · rename_i q' heq
    rw [hc] at heq
    injection heq with hq'
    subst hq'
    rw [if_neg hne, hp]

/-! ## Generic helpers for the claim theorems -/

/-- Whether an `Except` computation succeeded. -/
def isOkE {α : Type} (e : Except String α) : Bool :=
  match e with
  | .ok _ => true
  | .error _ => false

/-- Whether an `Except` computation failed. -/
def isErrE {α : Type} (e : Except String α) : Bool :=
  match e with
  | .ok _ => false
  | .error _ => true

theorem splitFirst_none_iff (sep : Char) (l : List Char) :
    splitFirst sep l = none ↔ sep ∉ l := by
  induction l with
  | nil => simp [splitFirst]
  | cons c cs ih =>
    rw [splitFirst]
    by_cases h : c = sep
    · simp [h]
    · simp [h, ih]
      intro _ hh
      exact h hh.symm

theorem splitFirst_append (sep : Char) (a b : List Char)
    (ha : sep ∉ a) :
    splitFirst sep (a ++ sep :: b) = some (a, b) := by
  induction a with
  | nil => simp [splitFirst]
  | cons c cs ih =>
    rw [List.mem_cons] at ha
    push_neg at ha
    rw [List.cons_append, splitFirst, if_neg (fun hh => ha.1 hh.symm),
      ih ha.2]
    rfl

/-! ## Claim theorems -/

/-- C5, counterexample: the claim says only one outermost pair of angle
brackets is stripped, so `MAIL FROM:<<a>>` should parse to `<a>`; the
code's `strings.Trim(address, "<>")` strips them all and yields `a`. -/
theorem c5_counterexample :
    parseAddress "MAIL FROM:<<a>>" = Except.ok "a" ∧ ("a" : String) ≠ "<a>" :=
  ⟨rfl, by decide⟩

/-- C5 (amended): for every MAIL FROM or RCPT TO command line, the
address is obtained by splitting the line on the first colon, failing
when no colon exists, trimming surrounding whitespace from the
remainder, and then stripping ALL leading and trailing angle-bracket
characters (`<` and `>`, any count, either orientation) — not just one
outermost pair. -/
theorem c5_address_trim_all :
    (∀ a b : String, a.data.contains ':' = false →
      parseAddress ⟨a.data ++ ':' :: b.data⟩ =
        Except.ok (trimAngleS (trimS b)))
    ∧ (∀ line : String, line.data.contains ':' = false →
      parseAddress line = Except.error "invalid RCPT TO syntax") := by
  constructor
  · intro a b ha
    show (match splitFirst ':' (a.data ++ ':' :: b.data) with
      | none => Except.error "invalid RCPT TO syntax"
      | some p => Except.ok (trimAngleS (trimS ⟨p.2⟩))) = _
    rw [splitFirst_append ':' a.data b.data (by simpa using ha)]
  · intro line hline
    show (match splitFirst ':' line.data with
      | none => Except.error "invalid RCPT TO syntax"
      | some p => Except.ok (trimAngleS (trimS ⟨p.2⟩))) = _
    rw [(splitFirst_none_iff ':' line.data).mpr (by simpa using hline)]

/-- Witness for C5 (amended) at a concrete command line. -/
theorem c5_address_trim_all_witness :
    parseAddress "MAIL FROM: <u@v> " = Except.ok "u@v"
    ∧ parseAddress "MAIL FROM" = Except.error "invalid RCPT TO syntax" := by
  constructor
  · have h := c5_address_trim_all.1 "MAIL FROM" " <u@v> " (by decide)
    have he : ("MAIL FROM: <u@v> " : String) =
        ⟨"MAIL FROM".data ++ ':' :: " <u@v> ".data⟩ := by decide
    rw [he, h]
    decide
  · exact c5_address_trim_all.2 "MAIL FROM" (by decide)

/-- C10: `parseAddress` never fails on a line containing a colon (no
syntactic validation of the address text); `MAIL FROM:` with nothing
after the colon yields the empty-string address, and the session replies
`250 OK` to it. -/
theorem c10_parseAddress_total :
    (∀ line : String, isOkE (parseAddress line) = line.data.contains ':')
    ∧ parseAddress "MAIL FROM:" = Except.ok ""
    ∧ (∀ cb frm rcpt, runSession cb frm rcpt ["MAIL FROM:"] =
        ⟨["250 OK"], []⟩) := by
  refine ⟨?_, rfl, ?_⟩
  · intro line
    match h : splitFirst ':' line.data with
    | none =>
      have hmem := (splitFirst_none_iff ':' line.data).mp h
      have hc : line.data.contains ':' = false := by simpa using hmem
      simp [parseAddress, h, isOkE, hc]
      exact hmem
    | some p =>
      have hmem : ':' ∈ line.data := by
        by_contra hcon
        rw [(splitFirst_none_iff ':' line.data).mpr hcon] at h
        cases h
      have hc : line.data.contains ':' = true := by simpa using hmem
      simp [parseAddress, h, isOkE, hc]
      exact hmem
  · intro cb frm rcpt
    rw [runSession_mail_ok cb frm rcpt "MAIL FROM:" "" [] rfl rfl rfl,
      runSession_nil]

/-- C4, counterexample: a lone `"."` line in COMMAND state is answered
with nothing at all (the Go `break` only leaves the `switch`), not with
`250 OK` as the claim states. -/
theorem c4_counterexample :
    (runSession (fun _ => Except.ok ()) "" "" ["."]).replies = []
    ∧ (runSession (fun _ => Except.ok ()) "" "" ["."]).replies ≠ ["250 OK"] := by
  rw [runSession_dot (fun _ => Except.ok ()) "" "" "." [] rfl, runSession_nil]
  exact ⟨rfl, by decide⟩

/-- C4 (amended): in COMMAND state, any line matching none of the
recognized command keywords is answered `250 OK` and the session stays in
COMMAND — except the bare lone `"."` line, which is silently ignored (no
reply) while the session still stays in COMMAND. -/
theorem c4_catchall_except_dot :
    (∀ cb frm rcpt (l : String) rest,
      startsWithS (trimS l) "EHLO" = false →
      startsWithS (trimS l) "MAIL FROM" = false →
      startsWithS (trimS l) "RCPT TO" = false →
      startsWithS (trimS l) "DATA" = false →
      startsWithS (trimS l) "QUIT" = false →
      startsWithS (trimS l) "NOOP" = false →
      trimS l ≠ "." →
      runSession cb frm rcpt (l :: rest) =
        ⟨"250 OK" :: (runSession cb frm rcpt rest).replies,
          (runSession cb frm rcpt rest).sent⟩)
    ∧ (∀ cb frm rcpt (l : String) rest, trimS l = "." →
      runSession cb frm rcpt (l :: rest) = runSession cb frm rcpt rest) :=
  ⟨fun cb frm rcpt l rest h1 h2 h3 h4 h5 h6 h7 =>
      runSession_catchall cb frm rcpt l rest h1 h2 h3 h4 h5 h6 h7,
    fun cb frm rcpt l rest h7 => runSession_dot cb frm rcpt l rest h7⟩

/-- Witness for C4 (amended): an unrecognized line gets `250 OK`; a bare
`"."` gets nothing. -/
theorem c4_catchall_except_dot_witness :
    runSession (fun _ => Except.ok ()) "" "" ["FOO"] = ⟨["250 OK"], []⟩
    ∧ runSession (fun _ => Except.ok ()) "" "" ["."] = ⟨[], []⟩ := by
  constructor
  · rw [c4_catchall_except_dot.1 (fun _ => Except.ok ()) "" "" "FOO" []
      rfl rfl rfl rfl rfl rfl (by decide), runSession_nil]
  · rw [c4_catchall_except_dot.2 (fun _ => Except.ok ()) "" "" "." [] rfl,
      runSession_nil]

/-- C8: the first `Shutdown` call succeeds and, in order, signals the
acceptor, waits for in-flight sessions, and closes the listener; any
call on an already-shut-down server fails with "server already closed"
and changes nothing (in particular it does not close the listener
again). -/
theorem c8_shutdown_guard :
    (shutdownStep initialServer).1 = Except.ok ()
    ∧ (shutdownStep initialServer).2.events =
        [ShutdownEvent.signalDone, ShutdownEvent.waitSessions,
          ShutdownEvent.closeListener]
    ∧ (∀ s : ServerState, s.doneClosed = true →
        shutdownStep s = (Except.error "server already closed", s))
    ∧ (shutdownStep (shutdownStep initialServer).2).1 =
        Except.error "server already closed"
    ∧ (shutdownStep (shutdownStep initialServer).2).2 =
        (shutdownStep initialServer).2 := by
  refine ⟨rfl, rfl, ?_, rfl, rfl⟩
  intro s hs
  simp [shutdownStep, hs]

/-- Witness for C8 at a concrete already-closed state. -/
theorem c8_shutdown_guard_witness :
    shutdownStep ⟨true, []⟩ = (Except.error "server already closed", ⟨true, []⟩) :=
  c8_shutdown_guard.2.2.1 ⟨true, []⟩ rfl

/-- C9: the message handed to the dispatch callback always carries the
session's envelope From/To, overwriting whatever the message headers
declared; when MAIL FROM / RCPT TO were never issued the fields are the
empty string. -/
theorem c9_envelope_overrides :
    (∀ cb frm rcpt msgLines (q : String × List String) msg,
      collectMailData msgLines = some q → q.1 ≠ "" →
      parseMailData q.1 = Except.ok msg →
      (runSession cb frm rcpt ("DATA" :: msgLines)).sent.head? =
        some { msg with From := frm, To := rcpt })
    ∧ (∀ cb msgLines (q : String × List String) msg,
      collectMailData msgLines = some q → q.1 ≠ "" →
      parseMailData q.1 = Except.ok msg →
      (runSession cb "" "" ("DATA" :: msgLines)).sent.head? =
        some { msg with From := "", To := "" }) := by
  constructor
  · intro cb frm rcpt msgLines q msg hc hne hp
    exact runSession_data_sent cb frm rcpt "DATA" msgLines q msg
      rfl rfl rfl rfl hc hne hp
  · intro cb msgLines q msg hc hne hp
    exact runSession_data_sent cb "" "" "DATA" msgLines q msg
      rfl rfl rfl rfl hc hne hp

/-- Witness for C9: a message whose headers declare From/To is
dispatched with both fields emptied because no envelope was given. -/
theorem c9_envelope_overrides_witness :
    (runSession (fun _ => Except.ok ()) "" ""
      ["DATA", "From: h@h", "To: i@i", "Subject: s", "", "b", "."]).sent.head? =
      some ⟨"", "", "s", "b", ""⟩ := by
  have h := c9_envelope_overrides.2 (fun _ => Except.ok ())
    ["From: h@h", "To: i@i", "Subject: s", "", "b", "."]
    ("From: h@h\r\nTo: i@i\r\nSubject: s\r\n\r\nb", [])
    ⟨"h@h", "i@i", "s", "b", ""⟩ (by decide) (by decide) (by decide)
  exact h

/-- C1: a session that declares envelope sender and recipient and then
completes DATA with a header block (Subject present, Content-Type absent
or a non-multipart type) and a single plain body dispatches a message
whose From/To are the envelope values, Subject is the declared header,
PlainText is the body and HTMLText is empty. -/
theorem c1_single_plain_body (cb : MailMessage → Except String Unit)
    (lf lt f t : String) (msgLines : List String)
    (q : String × List String) (hs : List (String × String))
    (body subj : String)
    (hf1 : startsWithS (trimS lf) "EHLO" = false)
    (hf2 : startsWithS (trimS lf) "MAIL FROM" = true)
    (hf3 : parseAddress (trimS lf) = .ok f)
    (ht1 : startsWithS (trimS lt) "EHLO" = false)
    (ht2 : startsWithS (trimS lt) "MAIL FROM" = false)
    (ht3 : startsWithS (trimS lt) "RCPT TO" = true)
    (ht4 : parseAddress (trimS lt) = .ok t)
    (hc : collectMailData msgLines = some q)
    (hne : q.1 ≠ "")
    (hp : parseHeadersAndBody q.1 = .ok (hs, body))
    (hct : getHeaderIn hs "Content-Type" = "" ∨
      ∃ mp, parseMediaType (getHeaderIn hs "Content-Type") = .ok mp ∧
        startsWithS mp.1 "multipart/" = false)
    (hsub : getHeaderIn hs "Subject" = subj) :
    (runSession cb "" "" (lf :: lt :: "DATA" :: msgLines)).sent.head? =
      some ⟨f, t, subj, body, ""⟩ := by
  rw [runSession_mail_ok cb "" "" lf f _ hf1 hf2 hf3]
  show (runSession cb f "" (lt :: "DATA" :: msgLines)).sent.head? = _
  rw [runSession_rcpt_ok cb f "" lt t _ ht1 ht2 ht3 ht4]
  show (runSession cb f t ("DATA" :: msgLines)).sent.head? = _
  have hmsg : parseMailData q.1 =
      Except.ok ⟨getHeaderIn hs "From", getHeaderIn hs "To", subj, body, ""⟩ := by
    unfold parseMailData
    rw [hp]
    show parseMailCore hs body = _
    unfold parseMailCore
    rcases hct with hct | ⟨mp, hmp, hnm⟩
    · rw [hct, hsub]
      rfl
    · rw [hmp, hsub]
      simp [hnm]
  exact runSession_data_sent cb f t "DATA" msgLines q _ rfl rfl rfl rfl hc hne hmsg

/-- Witness for C1 on a concrete session. -/
theorem c1_single_plain_body_witness :
    (runSession (fun _ => Except.ok ()) "" ""
      ["MAIL FROM:<a@b>", "RCPT TO:<c@d>", "DATA",
        "Subject: hello", "", "world", "."]).sent.head? =
      some ⟨"a@b", "c@d", "hello", "world", ""⟩ := by
  exact c1_single_plain_body (fun _ => Except.ok ())
    "MAIL FROM:<a@b>" "RCPT TO:<c@d>" "a@b" "c@d"
    ["Subject: hello", "", "world", "."]
    ("Subject: hello\r\n\r\nworld", []) [("Subject", "hello")]
    "world" "hello"
    rfl rfl (by decide) rfl rfl rfl (by decide) (by decide) (by decide)
    (by decide) (Or.inl (by decide)) (by decide)

/-- C6: for every raw message whose Content-Type media type has the
`multipart/` prefix but whose parameter mapping yields no boundary
(the Go map lookup gives the empty string), parsing fails rather than
producing a MailMessage: the decomposer is invoked with the empty
boundary string and its first `NextPart` call rejects it with
`multipart: boundary is empty`. -/
theorem c6_missing_boundary (data : String) (hs : List (String × String))
    (body : String) (mp : String × List (String × String))
    (hp : parseHeadersAndBody data = .ok (hs, body))
    (hmt : parseMediaType (getHeaderIn hs "Content-Type") = .ok mp)
    (hmul : startsWithS mp.1 "multipart/" = true)
    (hnob : paramGet mp.2 "boundary" = "") :
    isErrE (parseMailData data) = true := by
  unfold parseMailData
  rw [hp]
  show isErrE (parseMailCore hs body) = true
  unfold parseMailCore
  rw [hmt]
  simp only [hmul, if_true]
  rw [hnob]
  rfl

/-- Witness for C6 at concrete messages, including a body consisting of
a lone `----` line, which could only be mistaken for an empty-boundary
final delimiter if the empty-boundary rejection were missing. -/
theorem c6_missing_boundary_witness :
    isErrE (parseMailData "Content-Type: multipart/mixed\r\n\r\nhello") = true
    ∧ isErrE (parseMailData "Content-Type: multipart/mixed\r\n\r\n----") = true := by
  constructor
  · exact c6_missing_boundary "Content-Type: multipart/mixed\r\n\r\nhello"
      [("Content-Type", "multipart/mixed")] "hello" ("multipart/mixed", [])
      (by decide) (by decide) (by decide) (by decide)
  · exact c6_missing_boundary "Content-Type: multipart/mixed\r\n\r\n----"
      [("Content-Type", "multipart/mixed")] "----" ("multipart/mixed", [])
      (by decide) (by decide) (by decide) (by decide)

/-- A part whose Content-Type has the `text/plain` prefix (first branch
of the per-part update). -/
def partIsPlain (p : MPart) : Bool :=
  startsWithS (getHeaderIn p.header "Content-Type") "text/plain"

/-- A part whose Content-Type has the `text/html` prefix. -/
def partIsHtml (p : MPart) : Bool :=
  startsWithS (getHeaderIn p.header "Content-Type") "text/html"

theorem plain_html_exclusive (p : MPart) (h : partIsPlain p = true) :
    partIsHtml p = false := by
  unfold partIsPlain at h
  unfold partIsHtml
  by_contra hcon
  rw [Bool.not_eq_false] at hcon
  rw [startsWithS, List.isPrefixOf_iff_prefix] at h hcon
  obtain ⟨t1, e1⟩ := h
  obtain ⟨t2, e2⟩ := hcon
  rw [← e1] at e2
  simp at e2

theorem applyParts_append (l : List MPart) (p : MPart) (m : MailMessage) :
    applyParts (l ++ [p]) m = applyPart (applyParts l m) p := by
  unfold applyParts
  rw [List.foldl_append]
  rfl

theorem applyParts_plain (parts : List MPart) (m : MailMessage) :
    (applyParts parts m).PlainText =
      (match (parts.filter partIsPlain).getLast? with
       | some p => trimS p.content
       | none => m.PlainText) := by
  induction parts using List.reverseRecOn with
  | nil => simp [applyParts, List.filter]
  | append_singleton l p ih =>
    rw [applyParts_append, List.filter_append]
    by_cases hp : partIsPlain p = true
    · have : applyPart (applyParts l m) p =
          { applyParts l m with PlainText := trimS p.content } := by
        unfold applyPart
        unfold partIsPlain at hp
        rw [hp]
        rfl
      rw [this]
      simp [List.filter, hp]
    · have hpf : partIsPlain p = false := by
        rw [← Bool.not_eq_true]
        exact hp
      have : (applyPart (applyParts l m) p).PlainText =
          (applyParts l m).PlainText := by
        unfold applyPart
        unfold partIsPlain at hpf
        rw [hpf]
        by_cases hh : startsWithS (getHeaderIn p.header "Content-Type") "text/html" = true
        · rw [hh]
          rfl
        · rw [Bool.not_eq_true] at hh
          rw [hh]
          rfl
      rw [this, ih]
      simp [List.filter, hpf]

theorem applyParts_html (parts : List MPart) (m : MailMessage) :
    (applyParts parts m).HTMLText =
      (match (parts.filter partIsHtml).getLast? with
       | some p => trimS p.content
       | none => m.HTMLText) := by
  induction parts using List.reverseRecOn with
  | nil => simp [applyParts, List.filter]
  | append_singleton l p ih =>
    rw [applyParts_append, List.filter_append]
    by_cases hp : partIsPlain p = true
    · have hhf := plain_html_exclusive p hp
      have : (applyPart (applyParts l m) p).HTMLText =
          (applyParts l m).HTMLText := by
        unfold applyPart
        unfold partIsPlain at hp
        rw [hp]
        rfl
      rw [this, ih]
      simp [List.filter, hhf]
    · have hpf : partIsPlain p = false := by
        rw [← Bool.not_eq_true]; exact hp
      by_cases hh : partIsHtml p = true
      · have : applyPart (applyParts l m) p =
            { applyParts l m with HTMLText := trimS p.content } := by
          unfold applyPart
          unfold partIsPlain at hpf
          unfold partIsHtml at hh
          rw [hpf, hh]
          rfl
        rw [this]
        simp [List.filter, hh]
      · have hhf : partIsHtml p = false := by
          rw [← Bool.not_eq_true]; exact hh
        have : (applyPart (applyParts l m) p).HTMLText =
            (applyParts l m).HTMLText := by
          unfold applyPart
          unfold partIsPlain at hpf
          unfold partIsHtml at hhf
          rw [hpf, hhf]
          rfl
        rw [this, ih]
        simp [List.filter, hhf]

/-- C2: for every multipart body the decomposer accepts, PlainText is
the trimmed content of the LAST `text/plain`-prefixed part and HTMLText
the trimmed content of the LAST `text/html`-prefixed part
(last-one-wins); in particular, for one plain part and one html part the
fields equal each part's trimmed content whichever order the parts come
in. -/
theorem c2_last_part_wins (b body : String) (m : MailMessage)
    (parts : List MPart)
    (h : multipartParts b (linesOf body) = .ok parts) :
    processMultipartMessage body b m = .ok (applyParts parts m)
    ∧ (applyParts parts m).PlainText =
        (match (parts.filter partIsPlain).getLast? with
         | some p => trimS p.content
         | none => m.PlainText)
    ∧ (applyParts parts m).HTMLText =
        (match (parts.filter partIsHtml).getLast? with
         | some p => trimS p.content
         | none => m.HTMLText)
    ∧ (∀ pp ph : MPart, partIsPlain pp = true → partIsHtml ph = true →
        (applyParts [pp, ph] m).PlainText = trimS pp.content
        ∧ (applyParts [pp, ph] m).HTMLText = trimS ph.content
        ∧ (applyParts [ph, pp] m).PlainText = trimS pp.content
        ∧ (applyParts [ph, pp] m).HTMLText = trimS ph.content) := by
  refine ⟨?_, applyParts_plain parts m, applyParts_html parts m, ?_⟩
  · unfold processMultipartMessage
    rw [h]
  · intro pp ph hpp hph
    have hppf : partIsPlain ph = false := by
      by_contra hcon
      rw [Bool.not_eq_false] at hcon
      rw [plain_html_exclusive ph hcon] at hph
      cases hph
    have hphf : partIsHtml pp = false := plain_html_exclusive pp hpp
    refine ⟨?_, ?_, ?_, ?_⟩
    · rw [applyParts_plain]
      simp [List.filter, hpp, hppf]
    · rw [applyParts_html]
      simp [List.filter, hph, hphf]
    · rw [applyParts_plain]
      simp [List.filter, hpp, hppf]
    · rw [applyParts_html]
      simp [List.filter, hph, hphf]

/-- Witness for C2 on a concrete two-part multipart body. -/
theorem c2_last_part_wins_witness :
    processMultipartMessage
      "--b\r\nContent-Type: text/plain\r\n\r\nhi\r\n--b\r\nContent-Type: text/html\r\n\r\n<p>x</p>\r\n--b--"
      "b" ⟨"", "", "", "", ""⟩ =
      Except.ok ⟨"", "", "", "hi", "<p>x</p>"⟩ := by
  have h := c2_last_part_wins "b"
    "--b\r\nContent-Type: text/plain\r\n\r\nhi\r\n--b\r\nContent-Type: text/html\r\n\r\n<p>x</p>\r\n--b--"
    ⟨"", "", "", "", ""⟩
    [⟨[("Content-Type", "text/plain")], "hi"⟩,
      ⟨[("Content-Type", "text/html")], "<p>x</p>"⟩]
    (by decide)
  rw [h.1]
  decide

theorem buildHeaders_err_iff (acc : List (String × String)) (ls : List (List Char)) :
    isErrE (buildHeaders acc ls) = true ↔ ∃ line ∈ ls, splitFirst ':' line = none := by
  induction ls generalizing acc with
  | nil => simp [buildHeaders, isErrE]
  | cons line rest ih =>
    rw [buildHeaders]
    match h : splitFirst ':' line with
    | none =>
      simp [isErrE]
      exact Or.inl h
    | some p =>
      rw [ih]
      constructor
      · rintro ⟨x, hx, hnone⟩
        exact ⟨x, by simp [hx], hnone⟩
      · rintro ⟨x, hx, hnone⟩
        rcases List.mem_cons.mp hx with rfl | hx2
        · rw [h] at hnone
          cases hnone
        · exact ⟨x, hx2, hnone⟩

theorem except_cases {α : Type} (x : Except String α) :
    (∃ e, x = .error e) ∨ ∃ a, x = .ok a := by
  cases x
  · exact Or.inl ⟨_, rfl⟩
  · exact Or.inr ⟨_, rfl⟩

theorem parseHeadersAndBody_eq (data : String) :
    parseHeadersAndBody data =
      (match splitFirstBlank data.data with
       | none => .error "invalid mail format: missing headers or body"
       | some p =>
         match buildHeaders [] (splitCRLF p.1) with
         | .error e => .error e
         | .ok hs => .ok (hs, (⟨p.2⟩ : String))) := rfl

theorem parseHeadersAndBody_cases (data : String) :
    (∃ q, splitFirstBlank data.data = some q ∧
      ((∃ e, buildHeaders [] (splitCRLF q.1) = .error e ∧
          parseHeadersAndBody data = .error e)
       ∨ (∃ hs, buildHeaders [] (splitCRLF q.1) = .ok hs ∧
          parseHeadersAndBody data = .ok (hs, (⟨q.2⟩ : String)))))
    ∨ (splitFirstBlank data.data = none ∧
        parseHeadersAndBody data =
          .error "invalid mail format: missing headers or body") := by
  rcases Option.eq_none_or_eq_some (splitFirstBlank data.data) with hsb | ⟨q0, hsb⟩
  · right
    refine ⟨hsb, ?_⟩
    rw [parseHeadersAndBody_eq, hsb]
  · left
    refine ⟨q0, hsb, ?_⟩
    rcases except_cases (buildHeaders [] (splitCRLF q0.1)) with ⟨e, hb⟩ | ⟨hs, hb⟩
    · left
      refine ⟨e, hb, ?_⟩
      simp only [parseHeadersAndBody_eq, hsb, hb]
    · right
      refine ⟨hs, hb, ?_⟩
      simp only [parseHeadersAndBody_eq, hsb, hb]

theorem parseHeadersAndBody_err_iff (data : String) :
    isErrE (parseHeadersAndBody data) = true ↔
      splitFirstBlank data.data = none
      ∨ ∃ q, splitFirstBlank data.data = some q
          ∧ ∃ line ∈ splitCRLF q.1, splitFirst ':' line = none := by
  constructor
  · intro h
    rcases parseHeadersAndBody_cases data with
      ⟨q, hsb, ⟨e, hbe, _⟩ | ⟨hs, hbo, hpo⟩⟩ | ⟨hnone, _⟩
    · exact Or.inr ⟨q, hsb, (buildHeaders_err_iff _ _).mp (by rw [hbe]; rfl)⟩
    · rw [hpo] at h
      cases h
    · exact Or.inl hnone
  · intro h
    rcases parseHeadersAndBody_cases data with
      ⟨q, hsb, ⟨e, hbe, hpe⟩ | ⟨hs, hbo, hpo⟩⟩ | ⟨hnone, hpe⟩
    · rw [hpe]
      rfl
    · rcases h with hnone | ⟨q2, hsb2, hlines⟩
      · rw [hnone] at hsb
        cases hsb
      · rw [hsb] at hsb2
        injection hsb2 with hq2
        subst hq2
        have h3 : isErrE (buildHeaders [] (splitCRLF q.1)) = true :=
          (buildHeaders_err_iff _ _).mpr hlines
        rw [hbo] at h3
        cases h3
    · rw [hpe]
      rfl

theorem parseMailCore_eq_of_mt_err (hs : List (String × String))
    (body e : String)
    (hmt : parseMediaType (getHeaderIn hs "Content-Type") = .error e) :
    parseMailCore hs body =
      (if getHeaderIn hs "Content-Type" ≠ "" then
        Except.error ("error parsing Content-Type: " ++ e)
      else
        Except.ok ⟨getHeaderIn hs "From", getHeaderIn hs "To",
          getHeaderIn hs "Subject", body, ""⟩) := by
  unfold parseMailCore
  rw [hmt]

theorem parseMailCore_eq_of_mt_ok (hs : List (String × String))
    (body : String) (mp : String × List (String × String))
    (hmt : parseMediaType (getHeaderIn hs "Content-Type") = .ok mp) :
    parseMailCore hs body =
      (if startsWithS mp.1 "multipart/" = true then
        processMultipartMessage body (paramGet mp.2 "boundary")
          ⟨getHeaderIn hs "From", getHeaderIn hs "To",
            getHeaderIn hs "Subject", "", ""⟩
      else
        Except.ok ⟨getHeaderIn hs "From", getHeaderIn hs "To",
          getHeaderIn hs "Subject", body, ""⟩) := by
  unfold parseMailCore
  rw [hmt]

theorem parseMailCore_err_iff (hs : List (String × String)) (body : String) :
    isErrE (parseMailCore hs body) = true ↔
      (getHeaderIn hs "Content-Type" ≠ "" ∧
        isErrE (parseMediaType (getHeaderIn hs "Content-Type")) = true)
      ∨ (∃ mp, parseMediaType (getHeaderIn hs "Content-Type") = .ok mp
          ∧ startsWithS mp.1 "multipart/" = true
          ∧ isErrE (processMultipartMessage body (paramGet mp.2 "boundary")
              ⟨getHeaderIn hs "From", getHeaderIn hs "To",
                getHeaderIn hs "Subject", "", ""⟩) = true) := by
  match hmt : parseMediaType (getHeaderIn hs "Content-Type") with
  | .error e =>
    rw [parseMailCore_eq_of_mt_err hs body e hmt]
    by_cases hct : getHeaderIn hs "Content-Type" = ""
    · rw [if_neg (by simp [hct])]
      simp [isErrE, hct]
    · rw [if_pos hct]
      simp [isErrE, hct]
  | .ok mp0 =>
    rw [parseMailCore_eq_of_mt_ok hs body mp0 hmt]
    by_cases hm : startsWithS mp0.1 "multipart/" = true
    · rw [if_pos hm]
      constructor
      · intro h
        exact Or.inr ⟨mp0, rfl, hm, h⟩
      · rintro (⟨hct, herr⟩ | ⟨mp, hmpe, hmul, herr⟩)
        · exact absurd herr (by simp [isErrE])
        · injection hmpe with hh
          subst hh
          exact herr
    · rw [if_neg hm]
      constructor
      · intro h
        exact absurd h (by simp [isErrE])
      · rintro (⟨hct, herr⟩ | ⟨mp, hmpe, hmul, herr⟩)
        · exact absurd herr (by simp [isErrE])
        · injection hmpe with hh
          subst hh
          rw [hmul] at hm
          exact absurd rfl hm

/-- C3: parsing raw message text fails exactly when the blank-line
separator is missing, or a header line lacks a colon, or a non-empty
Content-Type fails media-type parsing, or the multipart decomposer
reports an error; with Content-Type absent/empty parsing succeeds and
the raw body becomes PlainText; and a colon-less header line makes the
DATA transaction reply `550 Error processing mail: …` and the session
close. -/
theorem c3_parse_error_characterization :
    (∀ data : String, isErrE (parseMailData data) = true ↔
      (splitFirstBlank data.data = none
       ∨ (∃ q, splitFirstBlank data.data = some q
           ∧ ∃ line ∈ splitCRLF q.1, splitFirst ':' line = none)
       ∨ (∃ hs body, parseHeadersAndBody data = .ok (hs, body)
           ∧ getHeaderIn hs "Content-Type" ≠ ""
           ∧ isErrE (parseMediaType (getHeaderIn hs "Content-Type")) = true)
       ∨ (∃ hs body mp, parseHeadersAndBody data = .ok (hs, body)
           ∧ parseMediaType (getHeaderIn hs "Content-Type") = .ok mp
           ∧ startsWithS mp.1 "multipart/" = true
           ∧ isErrE (processMultipartMessage body (paramGet mp.2 "boundary")
               ⟨getHeaderIn hs "From", getHeaderIn hs "To",
                 getHeaderIn hs "Subject", "", ""⟩) = true)))
    ∧ (∀ (data : String) hs body, parseHeadersAndBody data = .ok (hs, body) →
        getHeaderIn hs "Content-Type" = "" →
        parseMailData data = Except.ok ⟨getHeaderIn hs "From",
          getHeaderIn hs "To", getHeaderIn hs "Subject", body, ""⟩)
    ∧ (∀ cb frm rcpt msgLines (q : String × List String)
        (hdr : List Char × List Char) (line : List Char),
        collectMailData msgLines = some q → q.1 ≠ "" →
        splitFirstBlank q.1.data = some hdr →
        line ∈ splitCRLF hdr.1 → splitFirst ':' line = none →
        ∃ e, runSession cb frm rcpt ("DATA" :: msgLines) =
          ⟨[data354, "550 Error processing mail: " ++ e], []⟩) := by
  refine ⟨?_, ?_, ?_⟩
  · intro data
    unfold parseMailData
    match hhb : parseHeadersAndBody data with
    | .error e =>
      have h12 := (parseHeadersAndBody_err_iff data).mp (by rw [hhb]; rfl)
      show isErrE (Except.error e : Except String MailMessage) = true ↔ _
      constructor
      · intro _
        rcases h12 with h1 | h2
        · exact Or.inl h1
        · exact Or.inr (Or.inl h2)
      · intro _
        rfl
    | .ok pHB =>
      show isErrE (parseMailCore pHB.1 pHB.2) = true ↔ _
      rw [parseMailCore_err_iff]
      constructor
      · rintro (⟨hct, herr⟩ | ⟨mp, hmp, hmul, herr⟩)
        · exact Or.inr (Or.inr (Or.inl ⟨pHB.1, pHB.2, rfl, hct, herr⟩))
        · exact Or.inr (Or.inr (Or.inr ⟨pHB.1, pHB.2, mp, rfl, hmp, hmul, herr⟩))
      · rintro (h1 | h2 | ⟨hs, body, hok, hct, herr⟩ | ⟨hs, body, mp, hok, hmp, hmul, herr⟩)
        · have h3 : isErrE (parseHeadersAndBody data) = true :=
            (parseHeadersAndBody_err_iff data).mpr (Or.inl h1)
          rw [hhb] at h3
          cases h3
        · have h3 : isErrE (parseHeadersAndBody data) = true :=
            (parseHeadersAndBody_err_iff data).mpr (Or.inr h2)
          rw [hhb] at h3
          cases h3
        · injection hok with hok2
          rw [hok2]
          exact Or.inl ⟨hct, herr⟩
        · injection hok with hok2
          rw [hok2]
          exact Or.inr ⟨mp, hmp, hmul, herr⟩
  · intro data hs body hp hct
    unfold parseMailData
    rw [hp]
    show parseMailCore hs body = _
    unfold parseMailCore
    rw [hct]
    rfl
  · intro cb frm rcpt msgLines q hdr line hc hne hsb hmem hnc
    have hberr : isErrE (buildHeaders [] (splitCRLF hdr.1)) = true :=
      (buildHeaders_err_iff _ _).mpr ⟨line, hmem, hnc⟩
    obtain ⟨e, he⟩ : ∃ e, buildHeaders [] (splitCRLF hdr.1) = .error e := by
      match hcase : buildHeaders [] (splitCRLF hdr.1) with
      | .error e => exact ⟨e, rfl⟩
      | .ok _ =>
        rw [hcase] at hberr
        cases hberr
    refine ⟨e, ?_⟩
    have hhb : parseHeadersAndBody q.1 = .error e := by
      unfold parseHeadersAndBody
      rw [hsb]
      show (match buildHeaders [] (splitCRLF hdr.1) with
        | Except.error e2 => Except.error e2
        | Except.ok hs => Except.ok (hs, (⟨hdr.2⟩ : String))) = Except.error e
      rw [he]
    have hpd : parseMailData q.1 = .error e := by
      unfold parseMailData
      rw [hhb]
    exact runSession_data_parse_err cb frm rcpt "DATA" e msgLines q
      rfl rfl rfl rfl hc hne hpd

/-- Witness for C3 on concrete messages: a colon-less header line fails
and closes the transaction; an absent Content-Type parses with the body
as PlainText. -/
theorem c3_parse_error_characterization_witness :
    isErrE (parseMailData "NoColonHere\r\n\r\nx") = true
    ∧ parseMailData "A: 1\r\n\r\nbody" =
        Except.ok ⟨"", "", "", "body", ""⟩
    ∧ (∃ e, runSession (fun _ => Except.ok ()) "" ""
        ["DATA", "NoColonHere", "", "x", "."] =
        ⟨[data354, "550 Error processing mail: " ++ e], []⟩) := by
  refine ⟨?_, ?_, ?_⟩
  · exact (c3_parse_error_characterization.1 "NoColonHere\r\n\r\nx").mpr
      (Or.inr (Or.inl ⟨("NoColonHere".data, "x".data), by decide,
        "NoColonHere".data, by decide, by decide⟩))
  · exact c3_parse_error_characterization.2.1 "A: 1\r\n\r\nbody"
      [("A", "1")] "body" (by decide) (by decide)
  · exact c3_parse_error_characterization.2.2 (fun _ => Except.ok ()) "" ""
      ["NoColonHere", "", "x", "."]
      ("NoColonHere\r\n\r\nx", []) ("NoColonHere".data, "x".data)
      "NoColonHere".data (by decide) (by decide) (by decide) (by decide)
      (by decide)

theorem find?_eq_head_filter {α : Type} (p : α → Bool) (l : List α) :
    l.find? p = (l.filter p).head? := by
  induction l with
  | nil => rfl
  | cons c cs ih =>
    by_cases h : p c = true
    · rw [List.find?_cons_of_pos cs h, List.filter_cons_of_pos h]
      rfl
    · have hf : ¬ p c = true := h
      rw [List.find?_cons_of_neg cs hf, List.filter_cons_of_neg hf, ih]

theorem find?_perm_of_unique {α : Type} (p : α → Bool) (l1 l2 : List α)
    (h : l1.Perm l2)
    (hu : ∀ a ∈ l2, ∀ b ∈ l2, p a = true → p b = true → a = b) :
    l1.find? p = l2.find? p := by
  have hf : (l1.filter p).Perm (l2.filter p) := h.filter p
  rw [find?_eq_head_filter, find?_eq_head_filter]
  match hl2 : l2.filter p with
  | [] =>
    rw [hl2] at hf
    rw [hf.eq_nil]
  | x :: xs =>
    rw [hl2] at hf
    match hl1 : l1.filter p with
    | [] =>
      rw [hl1] at hf
      have := hf.length_eq
      simp at this
    | y :: ys =>
      rw [hl1] at hf
      have hy : y ∈ l2.filter p := by
        rw [hl2]
        exact hf.mem_iff.mp (by simp)
      have hx : x ∈ l2.filter p := by rw [hl2]; simp
      have hy2 := List.mem_filter.mp hy
      have hx2 := List.mem_filter.mp hx
      have : y = x := hu y hy2.1 x hx2.1 hy2.2 hx2.2
      rw [this]
      rfl

theorem eqFold_trans_key {a b k : String} (h1 : eqFold a k = true)
    (h2 : eqFold b k = true) : eqFold a b = true := by
  unfold eqFold at h1 h2 ⊢
  rw [beq_iff_eq] at h1 h2 ⊢
  rw [h1, h2]

/-- Lookup is independent of the traversal order of the header map as
long as no two distinct entries carry case-insensitively equal keys. -/
theorem getHeaderIn_perm (l1 l2 hs : List (String × String)) (key : String)
    (h1 : l1.Perm hs) (h2 : l2.Perm hs)
    (hnd : hs.Pairwise (fun p q => eqFold p.1 q.1 = false)) :
    getHeaderIn l1 key = getHeaderIn l2 key := by
  have hsymm : Symmetric (fun p q : String × String => eqFold p.1 q.1 = false) := by
    intro p q hpq
    by_contra hcon
    rw [Bool.not_eq_false] at hcon
    unfold eqFold at hpq hcon
    rw [beq_iff_eq] at hcon
    rw [hcon] at hpq
    simp at hpq
  have hu : ∀ a ∈ hs, ∀ b ∈ hs, eqFold a.1 key = true → eqFold b.1 key = true → a = b := by
    intro a ha b hb hak hbk
    by_contra hne
    have := hnd.forall hsymm ha hb hne
    rw [eqFold_trans_key hak hbk] at this
    cases this
  unfold getHeaderIn
  rw [find?_perm_of_unique _ l1 hs h1 hu, find?_perm_of_unique _ l2 hs h2 hu]

/-- C7, counterexample: the header block `Subject: a` / `SUBJECT: b`
produces two distinct map entries whose keys are case-insensitively
equal; the lookup result then depends on which entry a traversal of the
Go map visits first, and the two traversal orders (both valid
enumerations of the same map) produce different MailMessages, so two
runs need not agree byte-for-byte. -/
theorem c7_counterexample :
    parseHeadersAndBody "Subject: a\r\nSUBJECT: b\r\n\r\nx" =
      Except.ok ([("Subject", "a"), ("SUBJECT", "b")], "x")
    ∧ List.Perm [("SUBJECT", "b"), ("Subject", "a")]
        [("Subject", "a"), ("SUBJECT", "b")]
    ∧ parseMailCore [("Subject", "a"), ("SUBJECT", "b")] "x" ≠
        parseMailCore [("SUBJECT", "b"), ("Subject", "a")] "x" := by
  refine ⟨by decide, List.Perm.swap _ _ _, by decide⟩

/-- C7 (amended): parsing the same raw text twice yields identical
MailMessages whenever no two distinct entries of the header map have
case-insensitively equal keys — the lookup result is then independent of
the Go map's (unspecified) iteration order; with keys differing only in
letter case the result depends on that order, so byte-identical results
across runs are not guaranteed. -/
theorem c7_deterministic_iff_keys_fold_distinct (data : String)
    (hs : List (String × String)) (body : String)
    (l1 l2 : List (String × String))
    (hp : parseHeadersAndBody data = .ok (hs, body))
    (h1 : l1.Perm hs) (h2 : l2.Perm hs)
    (hnd : hs.Pairwise (fun p q => eqFold p.1 q.1 = false)) :
    parseMailCore l1 body = parseMailCore l2 body := by
  have e1 := getHeaderIn_perm l1 l2 hs "From" h1 h2 hnd
  have e2 := getHeaderIn_perm l1 l2 hs "To" h1 h2 hnd
  have e3 := getHeaderIn_perm l1 l2 hs "Subject" h1 h2 hnd
  have e4 := getHeaderIn_perm l1 l2 hs "Content-Type" h1 h2 hnd
  unfold parseMailCore
  rw [e1, e2, e3, e4]

/-- Witness for C7 (amended): two different traversal orders of a map
with case-insensitively distinct keys parse identically. -/
theorem c7_deterministic_witness :
    parseMailCore [("Subject", "s"), ("From", "f")] "b" =
      parseMailCore [("From", "f"), ("Subject", "s")] "b" := by
  exact c7_deterministic_iff_keys_fold_distinct
    "Subject: s\r\nFrom: f\r\n\r\nb"
    [("Subject", "s"), ("From", "f")] "b"
    [("Subject", "s"), ("From", "f")] [("From", "f"), ("Subject", "s")]
    (by decide) (by decide) (by decide) (by decide)

end SmtpBridge
